import Mathlib

/-!
# eBPF-Shield: `src/bpf/probes.c`

A shallow embedding of the three BPF programs of `src/bpf/probes.c`
(`sched_switch`, `page_fault_user`, `tc_ingress_remediator`) together with the
two BPF hash maps they share, and the properties of the remediation verdict and
of the metric counters that follow from the code.

Conventions of the embedding:

* `u64` / `u32` values are natural numbers; arithmetic that can wrap in C is
  written with an explicit `% 2^64` / `% 2^32`.
* A `BPF_HASH(name, u64, V)` map is a function `Nat → Option V`
  (`none` = the key has no entry, i.e. `lookup` returns `NULL`).
* The kernel helpers `bpf_get_current_cgroup_id()` and `bpf_get_prandom_u32()`
  are inputs of the handlers (`cgroup_id`, `prandom_u32`).
* Every handler returns its C return value together with the state of the two
  maps after the call.
-/

namespace EbpfShield

/-! ## Machine integers -/

/-- Number of values of a `u64`. -/
def U64_MOD : Nat := 18446744073709551616

/-- Number of values of a `u32`. -/
def U32_MOD : Nat := 4294967296

/-- Subtraction of two `u32` values as C computes it (wraps modulo `2^32`). -/
def u32_sub (a b : Nat) : Nat := (a + U32_MOD - b % U32_MOD) % U32_MOD

/-- The value left in a `u64` cell by `__sync_fetch_and_add(&cell, v)`. -/
def sync_fetch_and_add (cell v : Nat) : Nat := (cell + v) % U64_MOD

/-! ## Data structures and maps -/

/-- The C `struct metric_data`: four `u64` counters. -/
structure metric_data where
  net_latency_ns : Nat
  net_error_count : Nat
  cpu_sched_latency_ns : Nat
  mem_page_faults : Nat
  deriving DecidableEq, Repr

/-- The two BPF maps of the program: `metrics_map` (`u64 → struct metric_data`)
and `health_scores_map` (`u64 → u32`). -/
structure Maps where
  metrics_map : Nat → Option metric_data
  health_scores_map : Nat → Option Nat

/-- The value `TC_ACT_OK` of `linux/pkt_cls.h`: let the packet through. -/
def TC_ACT_OK : Int := 0

/-- The value `TC_ACT_SHOT` of `linux/pkt_cls.h`: drop the packet. -/
def TC_ACT_SHOT : Int := 2

/-! ## Probes -/

/-- The tracepoint handler `sched_switch` (probes.c, lines 28-40): look the current
cgroup up in `metrics_map`; when a record exists add 1 to its
`cpu_sched_latency_ns`; return 0. -/
def sched_switch (cgroup_id : Nat) (st : Maps) : Int × Maps :=
  match st.metrics_map cgroup_id with
  | some data =>
    (0, { st with
          metrics_map := fun k =>
            if k = cgroup_id then
              some { data with
                     cpu_sched_latency_ns := sync_fetch_and_add data.cpu_sched_latency_ns 1 }
            else st.metrics_map k })
  | none => (0, st)

/-- The tracepoint handler `page_fault_user` (probes.c, lines 43-50): look the
current cgroup up in `metrics_map`; when a record exists add 1 to its
`mem_page_faults`; return 0. -/
def page_fault_user (cgroup_id : Nat) (st : Maps) : Int × Maps :=
  match st.metrics_map cgroup_id with
  | some data =>
    (0, { st with
          metrics_map := fun k =>
            if k = cgroup_id then
              some { data with
                     mem_page_faults := sync_fetch_and_add data.mem_page_faults 1 }
            else st.metrics_map k })
  | none => (0, st)

/-- The `u32 drop_threshold = 1000 - health_score;` of line 74. -/
def drop_threshold (health_score : Nat) : Nat := u32_sub 1000 health_score

/-- The classifier `tc_ingress_remediator` (probes.c, lines 54-85).
`cgroup_id` is the result of `bpf_get_current_cgroup_id()`, `prandom_u32` the
result of `bpf_get_prandom_u32()`. -/
def tc_ingress_remediator (cgroup_id prandom_u32 : Nat) (st : Maps) : Int × Maps :=
  if cgroup_id = 0 then (TC_ACT_OK, st)
  else
    match st.health_scores_map cgroup_id with
    | none => (TC_ACT_OK, st)
    | some health_score =>
      if health_score ≥ 990 then (TC_ACT_OK, st)
      else
        let random_val := prandom_u32 % 1000
        if random_val < drop_threshold health_score then (TC_ACT_SHOT, st)
        else (TC_ACT_OK, st)

/-! ## Sequential executions -/

/-- One invocation of one of the three programs, with the values the kernel
helpers return to it. -/
inductive Event where
  | sched_switch (cgroup_id : Nat)
  | page_fault_user (cgroup_id : Nat)
  | tc_ingress (cgroup_id prandom_u32 : Nat)
  deriving DecidableEq, Repr

/-- The maps after one program invocation. -/
def step (st : Maps) : Event → Maps
  | Event.sched_switch cgroup_id => (sched_switch cgroup_id st).2
  | Event.page_fault_user cgroup_id => (page_fault_user cgroup_id st).2
  | Event.tc_ingress cgroup_id prandom_u32 => (tc_ingress_remediator cgroup_id prandom_u32 st).2

/-- The maps after a sequence of program invocations, one after the other. -/
def run (st : Maps) (es : List Event) : Maps := es.foldl step st

/-- Number of draws `d` in `[0, 999]` for which the classifier returns `TC_ACT_SHOT`. -/
def drop_count (cgroup_id : Nat) (st : Maps) : Nat :=
  ((List.range 1000).filter
    (fun d => decide ((tc_ingress_remediator cgroup_id d st).1 = TC_ACT_SHOT))).length

/-! ## Sample states -/

/-- Both maps empty. -/
def empty_maps : Maps :=
  { metrics_map := fun _ => none, health_scores_map := fun _ => none }

/-- A score map with the single entry `cgroup_id ↦ score`; no metric records. -/
def single_score (cgroup_id score : Nat) : Maps :=
  { metrics_map := fun _ => none,
    health_scores_map := fun k => if k = cgroup_id then some score else none }

/-- A metric map with the single record `cgroup_id ↦ data`; no scores. -/
def single_record (cgroup_id : Nat) (data : metric_data) : Maps :=
  { metrics_map := fun k => if k = cgroup_id then some data else none,
    health_scores_map := fun _ => none }

/-- The all-zero metric record. -/
def zero_record : metric_data :=
  { net_latency_ns := 0, net_error_count := 0, cpu_sched_latency_ns := 0, mem_page_faults := 0 }

/-- The zero record with `mem_page_faults` at the largest `u64` value, `2^64 - 1`. -/
def saturated_record : metric_data :=
  { zero_record with mem_page_faults := 18446744073709551615 }

/-! ## Concurrent executions of the tracepoint handlers

Several invocations of `sched_switch` and `page_fault_user` run at the same time.
Each invocation performs two atomic steps, as in the source: the map lookup
(`metrics_map.lookup(&cgroup_id)`), and then, when the pointer is not `NULL`, the
atomic `__sync_fetch_and_add` on the field of the element the pointer refers to.
A schedule picks, at each moment, the invocation that performs its next step. -/

/-- The two tracepoint handlers that write to `metrics_map`. -/
inductive Probe where
  | sched_switch
  | page_fault_user
  deriving DecidableEq, Repr

/-- Control point of a running handler invocation. In `looked_up data` the lookup has
been executed and `data` is the key of the map element the returned pointer refers
to (`none` for a `NULL` pointer). -/
inductive Pc where
  | entry
  | looked_up (data : Option Nat)
  | returned
  deriving DecidableEq, Repr

/-- A running invocation of a tracepoint handler: which handler, the value of
`bpf_get_current_cgroup_id()` in its context, and its control point. -/
structure Invocation where
  probe : Probe
  cgroup_id : Nat
  pc : Pc
  deriving DecidableEq, Repr

/-- The field of `struct metric_data` that the handler adds to. -/
def counter_of (p : Probe) (data : metric_data) : Nat :=
  match p with
  | Probe.sched_switch => data.cpu_sched_latency_ns
  | Probe.page_fault_user => data.mem_page_faults

/-- The record after the handler's `__sync_fetch_and_add(&data->field, 1)`. -/
def fetch_add_field (p : Probe) (data : metric_data) : metric_data :=
  match p with
  | Probe.sched_switch =>
    { data with cpu_sched_latency_ns := sync_fetch_and_add data.cpu_sched_latency_ns 1 }
  | Probe.page_fault_user =>
    { data with mem_page_faults := sync_fetch_and_add data.mem_page_faults 1 }

/-- One atomic step of an invocation on the shared `metrics_map`. -/
def invocation_step (t : Invocation) (m : Nat → Option metric_data) :
    Invocation × (Nat → Option metric_data) :=
  match t.pc with
  | Pc.entry =>
    ({ t with pc := Pc.looked_up (if (m t.cgroup_id).isSome then some t.cgroup_id else none) },
     m)
  | Pc.looked_up none => ({ t with pc := Pc.returned }, m)
  | Pc.looked_up (some key) =>
    ({ t with pc := Pc.returned },
     fun k => if k = key then (m k).map (fetch_add_field t.probe) else m k)
  | Pc.returned => (t, m)

/-- The invocation with index `i` performs its next atomic step (nothing happens when
there is no such invocation). -/
def sched_step (c : List Invocation × (Nat → Option metric_data)) (i : Nat) :
    List Invocation × (Nat → Option metric_data) :=
  match c.1[i]? with
  | none => c
  | some t => (c.1.set i (invocation_step t c.2).1, (invocation_step t c.2).2)

/-- The invocations and the shared map after the steps of a schedule. -/
def interleave (schedule : List Nat) (c : List Invocation × (Nat → Option metric_data)) :
    List Invocation × (Nat → Option metric_data) :=
  schedule.foldl sched_step c

/-- The invocations started by a list of callers `(handler, cgroup id)`, all at entry. -/
def spawn (callers : List (Probe × Nat)) : List Invocation :=
  callers.map (fun c => { probe := c.1, cgroup_id := c.2, pc := Pc.entry })

/-- The invocation is one of handler `p` in cgroup `cgroup_id`. -/
def is_target (p : Probe) (cgroup_id : Nat) (t : Invocation) : Bool :=
  decide (t.probe = p) && decide (t.cgroup_id = cgroup_id)

/-- The invocation is one of handler `p` in cgroup `cgroup_id` and has returned. -/
def is_done (p : Probe) (cgroup_id : Nat) (t : Invocation) : Bool :=
  is_target p cgroup_id t && decide (t.pc = Pc.returned)

/-- The pointer held by an invocation after its lookup refers to the element of its
own cgroup, and it is not `NULL` for an invocation in cgroup `cgroup_id`. -/
def pointer_ok (cgroup_id : Nat) (t : Invocation) : Prop :=
  ∀ d, t.pc = Pc.looked_up d → d = some t.cgroup_id ∨ (d = none ∧ t.cgroup_id ≠ cgroup_id)

/-- Number of atomic steps an invocation still has to perform. -/
def steps_left (t : Invocation) : Nat :=
  match t.pc with
  | Pc.entry => 2
  | Pc.looked_up _ => 1
  | Pc.returned => 0

/-- The schedule that lets every one of `n` invocations perform its lookup, and then
every one of them its second step. -/
def round_robin (n : Nat) : List Nat := List.range n ++ List.range n

/-- Four concurrent callers: three in cgroup 42 (two `page_fault_user`, one
`sched_switch`) and one `page_fault_user` in cgroup 7. -/
def sample_callers : List (Probe × Nat) :=
  [(Probe.page_fault_user, 42), (Probe.sched_switch, 42), (Probe.page_fault_user, 42),
   (Probe.page_fault_user, 7)]

/-- A schedule for `sample_callers` in which all lookups of the first three callers
happen before any of their additions. -/
def sample_schedule : List Nat := [2, 0, 1, 0, 3, 2, 1, 3]

/-! ## The writer of the score map -/

/-- The failure condition the score store reports to its caller. -/
inductive ScoreStoreError where
  | InvalidScore
  deriving DecidableEq, Repr

/-- Modelled from the spec: `ScoreStore.set(identity, score)`, the operation by which the
external scorer writes `health_scores_map`. `probes.c` only declares the map; the program
that writes it is not among the sources. Following the spec, `set` validates
`score ∈ [0,1000]`: an out-of-range score fails with `InvalidScore` and the store keeps
its state, an in-range score replaces the entry of `identity`. The result is the outcome
reported to the caller and the maps after the call. -/
def ScoreStore_set (identity : Nat) (score : Int) (st : Maps) :
    Except ScoreStoreError Unit × Maps :=
  if 0 ≤ score ∧ score ≤ 1000 then
    (Except.ok (),
     { st with
       health_scores_map := fun k =>
         if k = identity then some score.toNat else st.health_scores_map k })
  else (Except.error ScoreStoreError.InvalidScore, st)

/-- Modelled from the spec: `ScoreStore.get(identity)`, the current score of `identity`
or "absent"; on the map of `probes.c` this is `health_scores_map.lookup`. -/
def ScoreStore_get (identity : Nat) (st : Maps) : Option Nat :=
  st.health_scores_map identity

/-! ## Instrumentation of the classifier -/

/-- The value assigned to the variable `drop_threshold` at line 74 of `probes.c` in a
run of `tc_ingress_remediator`, or `none` when the run returns before that line. -/
def computed_drop_threshold (cgroup_id : Nat) (st : Maps) : Option Nat :=
  if cgroup_id = 0 then none
  else
    match st.health_scores_map cgroup_id with
    | none => none
    | some health_score =>
      if health_score ≥ 990 then none
      else some (drop_threshold health_score)

/-- The record stored under key `k` after one invocation `e`, given the record `data`
stored under `k` before it. -/
def record_after (e : Event) (k : Nat) (data : metric_data) : metric_data :=
  match e with
  | Event.sched_switch c =>
    if k = c then
      { data with cpu_sched_latency_ns := sync_fetch_and_add data.cpu_sched_latency_ns 1 }
    else data
  | Event.page_fault_user c =>
    if k = c then
      { data with mem_page_faults := sync_fetch_and_add data.mem_page_faults 1 }
    else data
  | Event.tc_ingress _ _ => data

/-- A state with the record `data` for cgroup `record_id` and the score `score` for
cgroup `score_id`. -/
def record_and_score (record_id : Nat) (data : metric_data) (score_id score : Nat) : Maps :=
  { metrics_map := fun k => if k = record_id then some data else none,
    health_scores_map := fun k => if k = score_id then some score else none }

/-- A score map with the two entries `a ↦ sa` and `b ↦ sb`; no metric records. -/
def two_scores (a sa b sb : Nat) : Maps :=
  { metrics_map := fun _ => none,
    health_scores_map := fun k => if k = a then some sa else if k = b then some sb else none }

theorem TC_ACT_SHOT_ne_OK : TC_ACT_SHOT ≠ TC_ACT_OK := by decide

/-- Below 990 the `u32` subtraction of line 74 does not wrap. -/
theorem drop_threshold_of_lt {s : Nat} (h : s < 990) : drop_threshold s = 1000 - s := by
  unfold drop_threshold u32_sub U32_MOD
  omega

/-- The verdict on the path that reaches the random draw. -/
theorem tc_ret_of_lt {cgroup_id prandom_u32 s : Nat} {st : Maps}
    (hid : cgroup_id ≠ 0) (hs : st.health_scores_map cgroup_id = some s) (h : s < 990) :
    (tc_ingress_remediator cgroup_id prandom_u32 st).1
      = if prandom_u32 % 1000 < 1000 - s then TC_ACT_SHOT else TC_ACT_OK := by
  have h990 : ¬ s ≥ 990 := by omega
  simp only [tc_ingress_remediator, if_neg hid, hs, if_neg h990, drop_threshold_of_lt h]
  split <;> rfl

/-- The verdict on the early-out path for a near-perfect score. -/
theorem tc_ret_of_ge {cgroup_id prandom_u32 s : Nat} {st : Maps}
    (hs : st.health_scores_map cgroup_id = some s) (h : 990 ≤ s) :
    (tc_ingress_remediator cgroup_id prandom_u32 st).1 = TC_ACT_OK := by
  unfold tc_ingress_remediator
  by_cases hid : cgroup_id = 0
  · simp [hid]
  · simp [hid, hs, h]

/-- Counting the numbers below `t` among the first `n` naturals. -/
theorem length_filter_lt_range (n t : Nat) :
    ((List.range n).filter (fun d => decide (d < t))).length = min n t := by
  induction n with
  | zero => simp
  | succ n ih =>
    rw [List.range_succ, List.filter_append, List.length_append, ih]
    by_cases h : n < t
    · simp [h]; omega
    · simp [h]; omega

/-- Below 990 the classifier drops exactly `1000 - s` of the 1000 draws. -/
theorem drop_count_of_lt {cgroup_id s : Nat} {st : Maps}
    (hid : cgroup_id ≠ 0) (hs : st.health_scores_map cgroup_id = some s) (h : s < 990) :
    drop_count cgroup_id st = 1000 - s := by
  unfold drop_count
  have hcongr : (List.range 1000).filter
        (fun d => decide ((tc_ingress_remediator cgroup_id d st).1 = TC_ACT_SHOT))
      = (List.range 1000).filter (fun d => decide (d < 1000 - s)) := by
    apply List.filter_congr
    intro d hd
    have hd1000 : d < 1000 := List.mem_range.mp hd
    rw [tc_ret_of_lt hid hs h, Nat.mod_eq_of_lt hd1000]
    by_cases hlt : d < 1000 - s
    · simp [hlt]
    · simp [hlt, TC_ACT_SHOT_ne_OK.symm]
  rw [hcongr, length_filter_lt_range]
  omega

/-- From 990 on the classifier drops none of the 1000 draws. -/
theorem drop_count_of_ge {cgroup_id s : Nat} {st : Maps}
    (hs : st.health_scores_map cgroup_id = some s) (h : 990 ≤ s) :
    drop_count cgroup_id st = 0 := by
  unfold drop_count
  rw [List.length_eq_zero, List.filter_eq_nil_iff]
  intro d _
  simp [tc_ret_of_ge hs h, TC_ACT_SHOT_ne_OK.symm]

/-- The metric map after `sched_switch`, key by key. -/
theorem sched_switch_metrics (cgroup_id k : Nat) (st : Maps) :
    (sched_switch cgroup_id st).2.metrics_map k
      = if k = cgroup_id then
          (st.metrics_map cgroup_id).map (fun data =>
            { data with
              cpu_sched_latency_ns := sync_fetch_and_add data.cpu_sched_latency_ns 1 })
        else st.metrics_map k := by
  unfold sched_switch
  cases h : st.metrics_map cgroup_id with
  | none =>
    by_cases hk : k = cgroup_id
    · simp [hk, h]
    · simp [hk]
  | some data => simp

/-- The metric map after `page_fault_user`, key by key. -/
theorem page_fault_user_metrics (cgroup_id k : Nat) (st : Maps) :
    (page_fault_user cgroup_id st).2.metrics_map k
      = if k = cgroup_id then
          (st.metrics_map cgroup_id).map (fun data =>
            { data with mem_page_faults := sync_fetch_and_add data.mem_page_faults 1 })
        else st.metrics_map k := by
  unfold page_fault_user
  cases h : st.metrics_map cgroup_id with
  | none =>
    by_cases hk : k = cgroup_id
    · simp [hk, h]
    · simp [hk]
  | some data => simp

/-- The classifier writes to neither map. -/
theorem tc_ingress_remediator_maps (cgroup_id prandom_u32 : Nat) (st : Maps) :
    (tc_ingress_remediator cgroup_id prandom_u32 st).2 = st := by
  unfold tc_ingress_remediator
  dsimp only
  repeat (first | rfl | split)

/-- The record of `k` after one program invocation, field by field. -/
theorem step_record (st : Maps) (e : Event) (k : Nat) (r : metric_data)
    (hr : st.metrics_map k = some r) :
    ∃ r2, (step st e).metrics_map k = some r2 ∧
      r2.net_latency_ns = r.net_latency_ns ∧
      r2.net_error_count = r.net_error_count ∧
      r2.cpu_sched_latency_ns
        = (if e = Event.sched_switch k then sync_fetch_and_add r.cpu_sched_latency_ns 1
           else r.cpu_sched_latency_ns) ∧
      r2.mem_page_faults
        = (if e = Event.page_fault_user k then sync_fetch_and_add r.mem_page_faults 1
           else r.mem_page_faults) := by
  cases e with
  | sched_switch c =>
    by_cases hk : k = c
    · subst hk
      exact ⟨{ r with cpu_sched_latency_ns := sync_fetch_and_add r.cpu_sched_latency_ns 1 },
        by simp [step, sched_switch_metrics, hr], rfl, rfl, by simp, by simp⟩
    · have hne : ¬ c = k := fun h => hk h.symm
      exact ⟨r, by simp [step, sched_switch_metrics, hk, hr], rfl, rfl, by simp [hne], by simp⟩
  | page_fault_user c =>
    by_cases hk : k = c
    · subst hk
      exact ⟨{ r with mem_page_faults := sync_fetch_and_add r.mem_page_faults 1 },
        by simp [step, page_fault_user_metrics, hr], rfl, rfl, by simp, by simp⟩
    · have hne : ¬ c = k := fun h => hk h.symm
      exact ⟨r, by simp [step, page_fault_user_metrics, hk, hr], rfl, rfl, by simp,
        by simp [hne]⟩
  | tc_ingress c p =>
    exact ⟨r, by simp [step, tc_ingress_remediator_maps, hr], rfl, rfl, by simp, by simp⟩

/-- After any sequence of invocations the record of `k` is still there and its
`mem_page_faults` has grown by the number of `page_fault_user` invocations for `k`. -/
theorem run_mem_page_faults (es : List Event) (st : Maps) (k : Nat) (r : metric_data)
    (hr : st.metrics_map k = some r) (hwf : r.mem_page_faults < U64_MOD) :
    ∃ r2, (run st es).metrics_map k = some r2 ∧
      r2.mem_page_faults
        = (r.mem_page_faults + es.count (Event.page_fault_user k)) % U64_MOD := by
  induction es generalizing st r with
  | nil => exact ⟨r, hr, by simp [Nat.mod_eq_of_lt hwf]⟩
  | cons e es ih =>
    obtain ⟨r1, h1, -, -, -, hmpf⟩ := step_record st e k r hr
    have hwf1 : r1.mem_page_faults < U64_MOD := by
      rw [hmpf]
      split
      · exact Nat.mod_lt _ (by decide)
      · exact hwf
    obtain ⟨r2, h2, hcount⟩ := ih (step st e) r1 h1 hwf1
    refine ⟨r2, by simpa [run] using h2, ?_⟩
    rw [hcount, hmpf]
    by_cases he : e = Event.page_fault_user k
    · subst he
      simp only [if_true, sync_fetch_and_add, List.count_cons_self]
      rw [Nat.mod_add_mod]
      congr 1
      omega
    · have hne : ¬ (e == Event.page_fault_user k) = true := by simpa using he
      simp [he, List.count_cons, hne]

/-- The whole record of `k` after `n` consecutive `page_fault_user` invocations for `k`. -/
theorem run_replicate_page_fault (n : Nat) (st : Maps) (k : Nat) (r : metric_data)
    (hr : st.metrics_map k = some r) (hwf : r.mem_page_faults < U64_MOD) :
    (run st (List.replicate n (Event.page_fault_user k))).metrics_map k
      = some { r with mem_page_faults := (r.mem_page_faults + n) % U64_MOD } := by
  induction n generalizing st r with
  | zero => simp [run, hr, Nat.mod_eq_of_lt hwf]
  | succ n ih =>
    have h1 : (step st (Event.page_fault_user k)).metrics_map k
        = some { r with mem_page_faults := sync_fetch_and_add r.mem_page_faults 1 } := by
      simp [step, page_fault_user_metrics, hr]
    have h2 := ih (step st (Event.page_fault_user k)) _ h1
      (by simp only [sync_fetch_and_add]; exact Nat.mod_lt _ (by decide))
    simp only [List.replicate_succ, run, List.foldl_cons] at h2 ⊢
    rw [h2]
    simp only [sync_fetch_and_add, Nat.mod_add_mod]
    congr 3
    omega

/-- A `page_fault_user` invocation on a record whose `mem_page_faults` is `2^64 - 1`
wraps the counter to 0. -/
theorem step_saturated (st : Maps) (k : Nat)
    (h : st.metrics_map k = some saturated_record) :
    (step st (Event.page_fault_user k)).metrics_map k = some zero_record := by
  simp only [step, page_fault_user_metrics, if_true, h, Option.map, saturated_record,
    zero_record, sync_fetch_and_add, U64_MOD]

/-! ## Facts about concurrent executions -/

theorem counter_of_fetch_add_field (p q : Probe) (r : metric_data) :
    counter_of p (fetch_add_field q r)
      = if q = p then sync_fetch_and_add (counter_of p r) 1 else counter_of p r := by
  cases p <;> cases q <;> simp [counter_of, fetch_add_field]

/-- Effect of one atomic step of one invocation on the record of `cgroup_id`. -/
theorem invocation_step_spec (p : Probe) (cgroup_id : Nat) (t : Invocation)
    (m : Nat → Option metric_data) (r : metric_data)
    (hm : m cgroup_id = some r) (hpv : pointer_ok cgroup_id t) :
    pointer_ok cgroup_id (invocation_step t m).1 ∧
    is_target p cgroup_id (invocation_step t m).1 = is_target p cgroup_id t ∧
    ∃ r2, (invocation_step t m).2 cgroup_id = some r2 ∧
      ((is_done p cgroup_id (invocation_step t m).1 = is_done p cgroup_id t ∧
          counter_of p r2 = counter_of p r) ∨
       (is_done p cgroup_id (invocation_step t m).1 = true ∧ is_done p cgroup_id t = false ∧
          counter_of p r2 = sync_fetch_and_add (counter_of p r) 1)) := by
  obtain ⟨probe, cg, pc⟩ := t
  cases pc with
  | entry =>
    refine ⟨?_, rfl, r, hm, Or.inl ⟨?_, rfl⟩⟩
    · intro d hd
      simp only [invocation_step] at hd
      injection hd with hd
      by_cases hs : (m cg).isSome = true
      · left; simpa [hs] using hd.symm
      · right
        refine ⟨by simpa [hs] using hd.symm, ?_⟩
        intro hcg
        apply hs
        have hcg2 : cg = cgroup_id := hcg
        rw [hcg2, hm]
        rfl
    · simp [invocation_step, is_done]
  | returned =>
    exact ⟨hpv, rfl, r, hm, Or.inl ⟨rfl, rfl⟩⟩
  | looked_up d =>
    cases d with
    | none =>
      have hne : cg ≠ cgroup_id := by
        rcases hpv none rfl with h | h
        · cases h
        · exact h.2
      refine ⟨?_, rfl, r, hm, Or.inl ⟨?_, rfl⟩⟩
      · intro d hd
        simp [invocation_step] at hd
      · simp [invocation_step, is_done, is_target, hne]
    | some key =>
      have hkey : key = cg := by
        rcases hpv (some key) rfl with h | h
        · injection h
        · cases h.1
      subst hkey
      refine ⟨?_, rfl, ?_⟩
      · intro d hd
        simp [invocation_step] at hd
      · by_cases hcg : key = cgroup_id
        · subst hcg
          refine ⟨fetch_add_field probe r, by simp [invocation_step, hm], ?_⟩
          rw [counter_of_fetch_add_field]
          by_cases hp : probe = p
          · right
            simp [invocation_step, is_done, is_target, hp]
          · left
            simp [invocation_step, is_done, is_target, hp]
        · have hne : ¬ cgroup_id = key := fun h => hcg h.symm
          refine ⟨r, by simp [invocation_step, hne, hm], Or.inl ⟨?_, rfl⟩⟩
          simp [invocation_step, is_done, is_target, hcg]

/-- Effect of one scheduled step on the record of `cgroup_id` and on the number of
returned invocations of handler `p` in that cgroup. -/
theorem sched_step_spec (p : Probe) (cgroup_id : Nat)
    (c : List Invocation × (Nat → Option metric_data)) (i : Nat) (r : metric_data)
    (hm : c.2 cgroup_id = some r) (hpv : ∀ t ∈ c.1, pointer_ok cgroup_id t) :
    (∀ t ∈ (sched_step c i).1, pointer_ok cgroup_id t) ∧
    (sched_step c i).1.countP (is_target p cgroup_id) = c.1.countP (is_target p cgroup_id) ∧
    ∃ r2, (sched_step c i).2 cgroup_id = some r2 ∧
      ((((sched_step c i).1.countP (is_done p cgroup_id) = c.1.countP (is_done p cgroup_id)) ∧
          counter_of p r2 = counter_of p r) ∨
       (((sched_step c i).1.countP (is_done p cgroup_id)
            = c.1.countP (is_done p cgroup_id) + 1) ∧
          counter_of p r2 = sync_fetch_and_add (counter_of p r) 1)) := by
  obtain ⟨ts, m⟩ := c
  simp only at hm hpv
  unfold sched_step
  cases hget : ts[i]? with
  | none => exact ⟨hpv, rfl, r, hm, Or.inl ⟨rfl, rfl⟩⟩
  | some t =>
    obtain ⟨hi, hti⟩ := List.getElem?_eq_some_iff.mp hget
    have htmem : t ∈ ts := hti ▸ List.getElem_mem hi
    obtain ⟨hpv2, htarget, r2, hr2, hcases⟩ :=
      invocation_step_spec p cgroup_id t m r hm (hpv t htmem)
    have hle := List.boole_getElem_le_countP (is_done p cgroup_id) ts i hi
    have hle2 := List.boole_getElem_le_countP (is_target p cgroup_id) ts i hi
    rw [hti] at hle hle2
    refine ⟨?_, ?_, r2, hr2, ?_⟩
    · intro u hu
      rcases List.mem_or_eq_of_mem_set hu with h | h
      · exact hpv u h
      · rw [h]; exact hpv2
    · simp only [List.countP_set _ _ _ _ hi, hti, htarget]
      omega
    · rcases hcases with ⟨hd, hc⟩ | ⟨hd2, hd1, hc⟩
      · left
        refine ⟨?_, hc⟩
        simp only [List.countP_set _ _ _ _ hi, hti, hd]
        omega
      · right
        refine ⟨?_, hc⟩
        simp only [List.countP_set _ _ _ _ hi, hti, hd2, hd1]
        simp

/-- In every state reached by a schedule, the counter of handler `p` in the record of
`cgroup_id` is its initial value plus the number of returned invocations of `p` in that
cgroup, modulo `2^64`. -/
theorem interleave_counter (p : Probe) (cgroup_id : Nat) (n0 : Nat)
    (schedule : List Nat) (c : List Invocation × (Nat → Option metric_data))
    (hpv : ∀ t ∈ c.1, pointer_ok cgroup_id t)
    (hinv : ∃ r, c.2 cgroup_id = some r ∧
      counter_of p r = (n0 + c.1.countP (is_done p cgroup_id)) % U64_MOD) :
    (∀ t ∈ (interleave schedule c).1, pointer_ok cgroup_id t) ∧
    (interleave schedule c).1.countP (is_target p cgroup_id)
      = c.1.countP (is_target p cgroup_id) ∧
    ∃ r2, (interleave schedule c).2 cgroup_id = some r2 ∧
      counter_of p r2
        = (n0 + (interleave schedule c).1.countP (is_done p cgroup_id)) % U64_MOD := by
  induction schedule generalizing c with
  | nil => exact ⟨hpv, rfl, hinv⟩
  | cons i rest ih =>
    obtain ⟨r, hr, hcount⟩ := hinv
    obtain ⟨hpv1, htarget1, r1, hr1, hcases⟩ := sched_step_spec p cgroup_id c i r hr hpv
    have hinv1 : ∃ r, (sched_step c i).2 cgroup_id = some r ∧
        counter_of p r
          = (n0 + (sched_step c i).1.countP (is_done p cgroup_id)) % U64_MOD := by
      refine ⟨r1, hr1, ?_⟩
      rcases hcases with ⟨hd, hc⟩ | ⟨hd, hc⟩
      · rw [hc, hd, hcount]
      · rw [hc, hd, hcount, sync_fetch_and_add, Nat.mod_add_mod, Nat.add_assoc]
    obtain ⟨hpv2, htarget2, hfinal⟩ := ih (sched_step c i) hpv1 hinv1
    refine ⟨by simpa [interleave] using hpv2, ?_, by simpa [interleave] using hfinal⟩
    have h2 : (interleave (i :: rest) c) = interleave rest (sched_step c i) := rfl
    rw [h2, htarget2, htarget1]

theorem spawn_pointer_ok (cgroup_id : Nat) (callers : List (Probe × Nat)) :
    ∀ t ∈ spawn callers, pointer_ok cgroup_id t := by
  intro t ht d hd
  simp only [spawn, List.mem_map] at ht
  obtain ⟨c, -, rfl⟩ := ht
  cases hd

theorem spawn_countP_is_done (p : Probe) (cgroup_id : Nat) (callers : List (Probe × Nat)) :
    (spawn callers).countP (is_done p cgroup_id) = 0 := by
  rw [List.countP_eq_zero]
  intro t ht
  simp only [spawn, List.mem_map] at ht
  obtain ⟨c, -, rfl⟩ := ht
  simp [is_done]

theorem spawn_countP_is_target (p : Probe) (cgroup_id : Nat) (callers : List (Probe × Nat)) :
    (spawn callers).countP (is_target p cgroup_id) = callers.count (p, cgroup_id) := by
  induction callers with
  | nil => rfl
  | cons c cs ih =>
    obtain ⟨q, g⟩ := c
    simp only [spawn, List.map_cons, List.countP_cons, List.count_cons] at ih ⊢
    rw [ih]
    by_cases hq : q = p <;> by_cases hg : g = cgroup_id <;> simp [is_target, hq, hg]

/-- When every invocation has returned, the returned invocations of `p` in `cgroup_id`
are all the invocations of `p` in `cgroup_id`. -/
theorem countP_is_done_of_all_returned (p : Probe) (cgroup_id : Nat) (ts : List Invocation)
    (h : ∀ t ∈ ts, t.pc = Pc.returned) :
    ts.countP (is_done p cgroup_id) = ts.countP (is_target p cgroup_id) := by
  apply List.countP_congr
  intro t ht
  simp [is_done, h t ht]

theorem steps_left_invocation_step (t : Invocation) (m : Nat → Option metric_data) :
    steps_left (invocation_step t m).1 = steps_left t - 1 := by
  obtain ⟨probe, cg, pc⟩ := t
  cases pc with
  | entry => rfl
  | returned => rfl
  | looked_up d => cases d <;> rfl

theorem steps_left_sched_step (c : List Invocation × (Nat → Option metric_data))
    (i j : Nat) :
    ((sched_step c i).1[j]?).map steps_left
      = (c.1[j]?).map (fun t => steps_left t - (if i = j then 1 else 0)) := by
  obtain ⟨ts, m⟩ := c
  unfold sched_step
  cases hget : ts[i]? with
  | none =>
    by_cases hij : i = j
    · subst hij; simp [hget]
    · simp [hij]
  | some t =>
    by_cases hij : i = j
    · subst hij
      obtain ⟨hi, hti⟩ := List.getElem?_eq_some_iff.mp hget
      simp [List.getElem?_set, hi, hget, steps_left_invocation_step]
    · simp [List.getElem?_set, hij]

theorem steps_left_interleave (schedule : List Nat)
    (c : List Invocation × (Nat → Option metric_data)) (j : Nat) :
    ((interleave schedule c).1[j]?).map steps_left
      = (c.1[j]?).map (fun t => steps_left t - schedule.count j) := by
  induction schedule generalizing c with
  | nil => simp [interleave]
  | cons i rest ih =>
    have h2 : interleave (i :: rest) c = interleave rest (sched_step c i) := rfl
    rw [h2, ih, List.count_cons]
    cases hj : (sched_step c i).1[j]? with
    | none =>
      have h := steps_left_sched_step c i j
      rw [hj] at h
      cases hc : c.1[j]? with
      | none => rfl
      | some t => rw [hc] at h; cases h
    | some u =>
      have h := steps_left_sched_step c i j
      rw [hj] at h
      cases hc : c.1[j]? with
      | none => rw [hc] at h; cases h
      | some t =>
        rw [hc] at h
        simp only [Option.map_some', Option.some.injEq] at h ⊢
        rw [h]
        by_cases hij : i = j
        · simp [hij]; omega
        · simp [hij]

/-- The round-robin schedule runs every invocation to its return. -/
theorem round_robin_completes (callers : List (Probe × Nat))
    (m : Nat → Option metric_data) :
    ∀ t ∈ (interleave (round_robin callers.length) (spawn callers, m)).1,
      t.pc = Pc.returned := by
  intro t ht
  obtain ⟨j, hj⟩ := List.getElem?_of_mem ht
  have h := steps_left_interleave (round_robin callers.length) (spawn callers, m) j
  rw [hj] at h
  cases hc : (spawn callers)[j]? with
  | none => simp [hc] at h
  | some t0 =>
    have hlt : j < callers.length := by
      obtain ⟨hlt, -⟩ := List.getElem?_eq_some_iff.mp hc
      simpa [spawn] using hlt
    have hcount : (round_robin callers.length).count j = 2 := by
      have h1 : (List.range callers.length).count j = 1 :=
        List.count_eq_one_of_mem (List.nodup_range _) (List.mem_range.mpr hlt)
      simp [round_robin, List.count_append, h1]
    simp only [hc, Option.map_some', Option.some.injEq, hcount] at h
    have hle : steps_left t0 ≤ 2 := by
      obtain ⟨probe, cg, pc⟩ := t0
      cases pc <;> simp [steps_left]
    have h0 : steps_left t = 0 := by omega
    obtain ⟨probe, cg, pc⟩ := t
    cases pc <;> simp_all [steps_left]

/-- An invocation of `sched_switch` that runs alone does what the sequential handler
does. -/
theorem interleave_alone_sched_switch (cgroup_id : Nat) (st : Maps) :
    interleave [0, 0] (spawn [(Probe.sched_switch, cgroup_id)], st.metrics_map)
      = ([{ probe := Probe.sched_switch, cgroup_id := cgroup_id, pc := Pc.returned }],
         (sched_switch cgroup_id st).2.metrics_map) := by
  cases h : st.metrics_map cgroup_id with
  | none =>
    have hs : sched_switch cgroup_id st = (0, st) := by simp only [sched_switch, h]
    simp [interleave, sched_step, spawn, invocation_step, h, hs]
  | some data =>
    simp only [interleave, sched_step, spawn, invocation_step, h, List.foldl_cons,
      List.foldl_nil, List.map_cons, List.map_nil, List.getElem?_cons_zero, List.set_cons_zero,
      Option.isSome_some, if_true, Prod.mk.injEq, true_and]
    funext k
    rw [sched_switch_metrics]
    by_cases hk : k = cgroup_id
    · subst hk; simp [h, fetch_add_field]
    · simp [hk]

/-- An invocation of `page_fault_user` that runs alone does what the sequential handler
does. -/
theorem interleave_alone_page_fault_user (cgroup_id : Nat) (st : Maps) :
    interleave [0, 0] (spawn [(Probe.page_fault_user, cgroup_id)], st.metrics_map)
      = ([{ probe := Probe.page_fault_user, cgroup_id := cgroup_id, pc := Pc.returned }],
         (page_fault_user cgroup_id st).2.metrics_map) := by
  cases h : st.metrics_map cgroup_id with
  | none =>
    have hs : page_fault_user cgroup_id st = (0, st) := by simp only [page_fault_user, h]
    simp [interleave, sched_step, spawn, invocation_step, h, hs]
  | some data =>
    simp only [interleave, sched_step, spawn, invocation_step, h, List.foldl_cons,
      List.foldl_nil, List.map_cons, List.map_nil, List.getElem?_cons_zero, List.set_cons_zero,
      Option.isSome_some, if_true, Prod.mk.injEq, true_and]
    funext k
    rw [page_fault_user_metrics]
    by_cases hk : k = cgroup_id
    · subst hk; simp [h, fetch_add_field]
    · simp [hk]

/-! ## Facts about the verdict as a function of the score entry -/

/-- The classifier returns one of the two verdicts. -/
theorem tc_ret_cases (cgroup_id prandom_u32 : Nat) (st : Maps) :
    (tc_ingress_remediator cgroup_id prandom_u32 st).1 = TC_ACT_OK ∨
    (tc_ingress_remediator cgroup_id prandom_u32 st).1 = TC_ACT_SHOT := by
  unfold tc_ingress_remediator
  dsimp only
  repeat (first | exact Or.inl rfl | exact Or.inr rfl | split)

/-- The verdict in terms of the threshold computed at line 74. -/
theorem tc_ret_eq_of_threshold (cgroup_id prandom_u32 : Nat) (st : Maps) :
    (tc_ingress_remediator cgroup_id prandom_u32 st).1
      = match computed_drop_threshold cgroup_id st with
        | none => TC_ACT_OK
        | some t => if prandom_u32 % 1000 < t then TC_ACT_SHOT else TC_ACT_OK := by
  unfold tc_ingress_remediator computed_drop_threshold
  by_cases hid : cgroup_id = 0
  · simp [hid]
  · cases hs : st.health_scores_map cgroup_id with
    | none => simp [hid]
    | some s =>
      by_cases h990 : s ≥ 990
      · simp [hid, h990]
      · simp only [if_neg hid, if_neg h990]
        split <;> rfl

/-- The classifier drops exactly on the path through line 74 with a draw below the
threshold. -/
theorem tc_ret_shot_iff (cgroup_id prandom_u32 : Nat) (st : Maps) :
    (tc_ingress_remediator cgroup_id prandom_u32 st).1 = TC_ACT_SHOT
      ↔ cgroup_id ≠ 0 ∧ ∃ s, st.health_scores_map cgroup_id = some s ∧ s < 990 ∧
          prandom_u32 % 1000 < 1000 - s := by
  constructor
  · intro h
    by_cases hid : cgroup_id = 0
    · subst hid
      exact absurd h TC_ACT_SHOT_ne_OK.symm
    · refine ⟨hid, ?_⟩
      cases hs : st.health_scores_map cgroup_id with
      | none =>
        have hok : (tc_ingress_remediator cgroup_id prandom_u32 st).1 = TC_ACT_OK := by
          simp [tc_ingress_remediator, hid, hs]
        rw [hok] at h
        exact absurd h TC_ACT_SHOT_ne_OK.symm
      | some s =>
        by_cases h990 : 990 ≤ s
        · rw [tc_ret_of_ge hs h990] at h
          exact absurd h TC_ACT_SHOT_ne_OK.symm
        · have hlt : s < 990 := by omega
          rw [tc_ret_of_lt hid hs hlt] at h
          refine ⟨s, rfl, hlt, ?_⟩
          by_contra hnot
          rw [if_neg hnot] at h
          exact absurd h TC_ACT_SHOT_ne_OK.symm
  · rintro ⟨hid, s, hs, hlt, hdraw⟩
    rw [tc_ret_of_lt hid hs hlt, if_pos hdraw]

/-- The verdict depends on the state only through the score entry of the current
cgroup, and on the random value only through its remainder modulo 1000. -/
theorem tc_ret_congr (cgroup_id r1 r2 : Nat) (st1 st2 : Maps)
    (hs : st1.health_scores_map cgroup_id = st2.health_scores_map cgroup_id)
    (hdraw : r1 % 1000 = r2 % 1000) :
    (tc_ingress_remediator cgroup_id r1 st1).1 = (tc_ingress_remediator cgroup_id r2 st2).1 := by
  rw [tc_ret_eq_of_threshold, tc_ret_eq_of_threshold]
  have hthr : computed_drop_threshold cgroup_id st1 = computed_drop_threshold cgroup_id st2 := by
    unfold computed_drop_threshold
    rw [hs]
  rw [hthr, hdraw]

/-- An in-range `set` succeeds and the new score is what `get` returns afterwards. -/
theorem ScoreStore_set_in_range (identity : Nat) (score : Int) (st : Maps)
    (h0 : 0 ≤ score) (h1 : score ≤ 1000) :
    (ScoreStore_set identity score st).1 = Except.ok () ∧
    ScoreStore_get identity (ScoreStore_set identity score st).2 = some score.toNat := by
  simp [ScoreStore_set, ScoreStore_get, h0, h1]

/-! ## Facts about the effect of one invocation on the maps -/

theorem Maps_ext (st1 st2 : Maps) (hm : st1.metrics_map = st2.metrics_map)
    (hs : st1.health_scores_map = st2.health_scores_map) : st1 = st2 := by
  cases st1
  cases st2
  simp only at hm hs
  rw [hm, hs]

theorem sched_switch_health_scores (cgroup_id : Nat) (st : Maps) :
    (sched_switch cgroup_id st).2.health_scores_map = st.health_scores_map := by
  unfold sched_switch
  cases st.metrics_map cgroup_id <;> rfl

theorem page_fault_user_health_scores (cgroup_id : Nat) (st : Maps) :
    (page_fault_user cgroup_id st).2.health_scores_map = st.health_scores_map := by
  unfold page_fault_user
  cases st.metrics_map cgroup_id <;> rfl

/-- No invocation writes to `health_scores_map`. -/
theorem step_health_scores (st : Maps) (e : Event) :
    (step st e).health_scores_map = st.health_scores_map := by
  cases e with
  | sched_switch c => exact sched_switch_health_scores c st
  | page_fault_user c => exact page_fault_user_health_scores c st
  | tc_ingress c p => simp [step, tc_ingress_remediator_maps]

/-- The metric map after one invocation, key by key. -/
theorem step_metrics_map (st : Maps) (e : Event) (k : Nat) :
    (step st e).metrics_map k = (st.metrics_map k).map (record_after e k) := by
  cases e with
  | sched_switch c =>
    simp only [step, sched_switch_metrics]
    by_cases hk : k = c
    · subst hk
      cases st.metrics_map k <;> simp [record_after]
    · cases st.metrics_map k <;> simp [record_after, hk]
  | page_fault_user c =>
    simp only [step, page_fault_user_metrics]
    by_cases hk : k = c
    · subst hk
      cases st.metrics_map k <;> simp [record_after]
    · cases st.metrics_map k <;> simp [record_after, hk]
  | tc_ingress c p =>
    cases h : st.metrics_map k <;> simp [step, tc_ingress_remediator_maps, record_after, h]

theorem record_after_comm (e1 e2 : Event) (k : Nat) (data : metric_data) :
    record_after e2 k (record_after e1 k data) = record_after e1 k (record_after e2 k data) := by
  cases e1 <;> cases e2 <;> simp only [record_after] <;> split_ifs <;> rfl

/-- Two invocations, in either order, leave the same maps. -/
theorem step_comm (st : Maps) (e1 e2 : Event) :
    step (step st e1) e2 = step (step st e2) e1 := by
  apply Maps_ext
  · funext k
    rw [step_metrics_map, step_metrics_map, step_metrics_map, step_metrics_map]
    cases st.metrics_map k with
    | none => rfl
    | some data => simp [record_after_comm e1 e2 k data]
  · rw [step_health_scores, step_health_scores, step_health_scores, step_health_scores]

/-- A `u64` counter is changed by adding 1. -/
theorem sync_fetch_and_add_one_ne (x : Nat) : sync_fetch_and_add x 1 ≠ x := by
  simp only [sync_fetch_and_add, U64_MOD]
  omega

/-! ## The remediation verdict -/

/-- C1: for a non-zero identity whose stored score `s` is below 990, the classifier
returns `TC_ACT_SHOT` exactly when the draw (the random value reduced modulo 1000)
is below `1000 - s`, and `TC_ACT_OK` otherwise; with `s = 700` it drops at draw 299
and admits at draw 300. -/
theorem C1_verdict_below_990 (cgroup_id s : Nat) (st : Maps)
    (hid : cgroup_id ≠ 0) (hs : st.health_scores_map cgroup_id = some s) (hlt : s < 990) :
    (∀ draw, draw < 1000 →
      (((tc_ingress_remediator cgroup_id draw st).1 = TC_ACT_SHOT ↔ draw < 1000 - s) ∧
       ((tc_ingress_remediator cgroup_id draw st).1 = TC_ACT_OK ↔ ¬ draw < 1000 - s))) ∧
    (∀ prandom_u32,
      (((tc_ingress_remediator cgroup_id prandom_u32 st).1 = TC_ACT_SHOT
          ↔ prandom_u32 % 1000 < 1000 - s) ∧
       ((tc_ingress_remediator cgroup_id prandom_u32 st).1 = TC_ACT_OK
          ↔ ¬ prandom_u32 % 1000 < 1000 - s))) ∧
    (s = 700 →
      (tc_ingress_remediator cgroup_id 299 st).1 = TC_ACT_SHOT ∧
      (tc_ingress_remediator cgroup_id 300 st).1 = TC_ACT_OK) := by
  have key : ∀ prandom_u32,
      (((tc_ingress_remediator cgroup_id prandom_u32 st).1 = TC_ACT_SHOT
          ↔ prandom_u32 % 1000 < 1000 - s) ∧
       ((tc_ingress_remediator cgroup_id prandom_u32 st).1 = TC_ACT_OK
          ↔ ¬ prandom_u32 % 1000 < 1000 - s)) := by
    intro prandom_u32
    rw [tc_ret_of_lt hid hs hlt]
    by_cases h : prandom_u32 % 1000 < 1000 - s
    · simp [h, TC_ACT_SHOT_ne_OK]
    · simp [h, TC_ACT_SHOT_ne_OK.symm]
  refine ⟨?_, key, ?_⟩
  · intro draw hdraw
    have h := key draw
    rwa [Nat.mod_eq_of_lt hdraw] at h
  · intro h700
    subst h700
    exact ⟨(key 299).1.2 (by decide), (key 300).2.2 (by decide)⟩

theorem C1_verdict_below_990_witness :
    (tc_ingress_remediator 7 299 (single_score 7 700)).1 = TC_ACT_SHOT ∧
    (tc_ingress_remediator 7 300 (single_score 7 700)).1 = TC_ACT_OK :=
  (C1_verdict_below_990 7 700 (single_score 7 700) (by decide) rfl (by decide)).2.2 rfl

/-- C2: for identity 0 the classifier returns `TC_ACT_OK` for every random value and
every content of the two maps, also when a score (even score 0) is stored under key 0. -/
theorem C2_host_always_admitted (prandom_u32 : Nat) (st : Maps) :
    (tc_ingress_remediator 0 prandom_u32 st).1 = TC_ACT_OK ∧
    (single_score 0 0).health_scores_map 0 = some 0 ∧
    (tc_ingress_remediator 0 prandom_u32 (single_score 0 0)).1 = TC_ACT_OK :=
  ⟨rfl, rfl, rfl⟩

/-- C3: for an identity that has no entry in `health_scores_map` the classifier
returns `TC_ACT_OK` for every random value. -/
theorem C3_missing_score_admitted (cgroup_id prandom_u32 : Nat) (st : Maps)
    (hs : st.health_scores_map cgroup_id = none) :
    (tc_ingress_remediator cgroup_id prandom_u32 st).1 = TC_ACT_OK := by
  unfold tc_ingress_remediator
  by_cases hid : cgroup_id = 0
  · simp [hid]
  · simp [hid, hs]

theorem C3_missing_score_admitted_witness :
    (tc_ingress_remediator 7 123 (single_score 8 0)).1 = TC_ACT_OK :=
  C3_missing_score_admitted 7 123 (single_score 8 0) rfl

/-- C4: for an identity whose stored score is at least 990 the classifier returns
`TC_ACT_OK` for every random value, so the verdict is the same for any two random
values. -/
theorem C4_near_perfect_admitted (cgroup_id s : Nat) (st : Maps)
    (hs : st.health_scores_map cgroup_id = some s) (hge : 990 ≤ s) :
    (∀ prandom_u32, (tc_ingress_remediator cgroup_id prandom_u32 st).1 = TC_ACT_OK) ∧
    (∀ r1 r2, (tc_ingress_remediator cgroup_id r1 st).1
                = (tc_ingress_remediator cgroup_id r2 st).1) := by
  have h := fun prandom_u32 => @tc_ret_of_ge cgroup_id prandom_u32 s st hs hge
  exact ⟨h, fun r1 r2 => (h r1).trans (h r2).symm⟩

theorem C4_near_perfect_admitted_witness :
    (tc_ingress_remediator 7 0 (single_score 7 990)).1 = TC_ACT_OK :=
  (C4_near_perfect_admitted 7 990 (single_score 7 990) rfl (by decide)).1 0

/-- C5: for a non-zero identity whose stored score is 0 the drop threshold is 1000
and the classifier returns `TC_ACT_SHOT` for every draw in `[0, 999]`, hence for
every 32-bit random value. -/
theorem C5_score_zero_always_dropped (cgroup_id : Nat) (st : Maps)
    (hid : cgroup_id ≠ 0) (hs : st.health_scores_map cgroup_id = some 0) :
    drop_threshold 0 = 1000 ∧
    (∀ draw, draw < 1000 → (tc_ingress_remediator cgroup_id draw st).1 = TC_ACT_SHOT) ∧
    (∀ prandom_u32, prandom_u32 < U32_MOD →
      (tc_ingress_remediator cgroup_id prandom_u32 st).1 = TC_ACT_SHOT) := by
  have key : ∀ prandom_u32,
      (tc_ingress_remediator cgroup_id prandom_u32 st).1 = TC_ACT_SHOT := by
    intro prandom_u32
    rw [tc_ret_of_lt hid hs (by decide)]
    have : prandom_u32 % 1000 < 1000 - 0 := by omega
    simp [this]
  exact ⟨by decide, fun d _ => key d, fun r _ => key r⟩

theorem C5_score_zero_always_dropped_witness :
    (tc_ingress_remediator 7 999 (single_score 7 0)).1 = TC_ACT_SHOT :=
  (C5_score_zero_always_dropped 7 (single_score 7 0) (by decide) rfl).2.1 999 (by decide)

/-- C6, counterexample: with the in-range score 990 stored for identity 7 no draw
is dropped, while `1000 - 990 = 10`. -/
theorem C6_counterexample :
    (single_score 7 990).health_scores_map 7 = some 990 ∧
    drop_count 7 (single_score 7 990) = 0 ∧
    drop_count 7 (single_score 7 990) ≠ 1000 - 990 := by
  have h0 : drop_count 7 (single_score 7 990) = 0 :=
    @drop_count_of_ge 7 990 (single_score 7 990) rfl (by decide)
  refine ⟨rfl, h0, ?_⟩
  rw [h0]
  decide

/-- C6, amended: for a non-zero identity with stored score `s`, the number of draws
in `[0, 999]` that are dropped is exactly `1000 - s` when `s ≤ 989`, and is 0 when
`990 ≤ s` (so it equals `1000 - s` on `[990, 1000]` only at `s = 1000`). -/
theorem C6_linear_drop_count (cgroup_id s : Nat) (st : Maps)
    (hid : cgroup_id ≠ 0) (hs : st.health_scores_map cgroup_id = some s) :
    (s ≤ 989 → drop_count cgroup_id st = 1000 - s) ∧
    (990 ≤ s → drop_count cgroup_id st = 0) :=
  ⟨fun h => drop_count_of_lt hid hs (by omega), fun h => drop_count_of_ge hs h⟩

theorem C6_linear_drop_count_witness :
    drop_count 7 (single_score 7 700) = 1000 - 700 :=
  (C6_linear_drop_count 7 700 (single_score 7 700) (by decide) rfl).1 (by decide)

/-! ## The metric counters -/

/-- C7: when the current identity has no record in `metrics_map`, `sched_switch` and
`page_fault_user` return 0 and leave both maps as they were; in particular no record
is created for that identity. -/
theorem C7_missing_record_noop (cgroup_id : Nat) (st : Maps)
    (h : st.metrics_map cgroup_id = none) :
    sched_switch cgroup_id st = (0, st) ∧
    page_fault_user cgroup_id st = (0, st) ∧
    (sched_switch cgroup_id st).2.metrics_map cgroup_id = none ∧
    (page_fault_user cgroup_id st).2.metrics_map cgroup_id = none := by
  have h1 : sched_switch cgroup_id st = (0, st) := by
    simp only [sched_switch, h]
  have h2 : page_fault_user cgroup_id st = (0, st) := by
    simp only [page_fault_user, h]
  refine ⟨h1, h2, ?_, ?_⟩
  · rw [h1]; exact h
  · rw [h2]; exact h

theorem C7_missing_record_noop_witness :
    sched_switch 42 (single_record 41 zero_record) = (0, single_record 41 zero_record) ∧
    page_fault_user 42 (single_record 41 zero_record) = (0, single_record 41 zero_record) :=
  ⟨(C7_missing_record_noop 42 (single_record 41 zero_record) rfl).1,
   (C7_missing_record_noop 42 (single_record 41 zero_record) rfl).2.1⟩

/-- C8: for an identity with a pre-existing record, after any sequence of program
invocations the record's `mem_page_faults` equals its initial value plus the number
of `page_fault_user` invocations for that identity, modulo `2^64`, whatever other
invocations are interleaved in the sequence; `n` consecutive invocations add `n`; and
from the zeroed record of identity 42, 1000 invocations give `mem_page_faults = 1000`. -/
theorem C8_page_fault_increments_add_up (cgroup_id : Nat) (r : metric_data) (st : Maps)
    (hr : st.metrics_map cgroup_id = some r) (hwf : r.mem_page_faults < U64_MOD) :
    (∀ es : List Event, ∃ r2, (run st es).metrics_map cgroup_id = some r2 ∧
      r2.mem_page_faults
        = (r.mem_page_faults + es.count (Event.page_fault_user cgroup_id)) % U64_MOD) ∧
    (∀ n : Nat,
      (run st (List.replicate n (Event.page_fault_user cgroup_id))).metrics_map cgroup_id
        = some { r with mem_page_faults := (r.mem_page_faults + n) % U64_MOD }) ∧
    (run (single_record 42 zero_record)
        (List.replicate 1000 (Event.page_fault_user 42))).metrics_map 42
      = some { zero_record with mem_page_faults := 1000 } := by
  refine ⟨fun es => run_mem_page_faults es st cgroup_id r hr hwf,
    fun n => run_replicate_page_fault n st cgroup_id r hr hwf, ?_⟩
  rw [run_replicate_page_fault 1000 (single_record 42 zero_record) 42 zero_record rfl
    (by decide)]
  rfl

theorem C8_page_fault_increments_add_up_witness :
    (run (single_record 42 zero_record)
        (List.replicate 1000 (Event.page_fault_user 42))).metrics_map 42
      = some { zero_record with mem_page_faults := 1000 } :=
  (C8_page_fault_increments_add_up 42 zero_record (single_record 42 zero_record) rfl
    (by decide)).2.2

/-- C9, counterexample: the record of identity 42 pre-exists with `mem_page_faults` at
`2^64 - 1`; one caller runs `page_fault_user` for identity 42 to its return (delta 1).
The final `mem_page_faults` is 0, which is neither the sum of the deltas (1) nor the
initial value plus that sum (`2^64`). -/
theorem C9_counterexample :
    (single_record 42 saturated_record).metrics_map 42 = some saturated_record ∧
    (interleave [0, 0] (spawn [(Probe.page_fault_user, 42)],
        (single_record 42 saturated_record).metrics_map)).1
      = [{ probe := Probe.page_fault_user, cgroup_id := 42, pc := Pc.returned }] ∧
    ((interleave [0, 0] (spawn [(Probe.page_fault_user, 42)],
        (single_record 42 saturated_record).metrics_map)).2 42).map
      (counter_of Probe.page_fault_user) = some 0 ∧
    [(Probe.page_fault_user, 42)].count (Probe.page_fault_user, 42) = 1 ∧
    (0 : Nat) ≠ 1 ∧
    0 ≠ counter_of Probe.page_fault_user saturated_record + 1 := by
  have hrun := interleave_alone_page_fault_user 42 (single_record 42 saturated_record)
  have hfinal : (page_fault_user 42 (single_record 42 saturated_record)).2.metrics_map 42
      = some zero_record := step_saturated (single_record 42 saturated_record) 42 rfl
  refine ⟨rfl, ?_, ?_, by decide, by decide, ?_⟩
  · rw [hrun]
  · rw [hrun]
    simp only [hfinal, Option.map_some', counter_of, zero_record]
  · simp only [counter_of, saturated_record]
    omega

/-- C9, amended: several invocations of the two tracepoint handlers run concurrently,
each as a lookup step followed by an atomic fetch-and-add step, interleaved by an
arbitrary schedule. When the record of the identity pre-exists, at every moment the
counter of a handler in that record is its initial value plus the number of returned
invocations of that handler for that identity, modulo `2^64`; so once all invocations
have returned it is the initial value plus the sum of all deltas modulo `2^64`, whatever
the interleaving was, and exactly the initial value plus that sum when this is below
`2^64`; and the round-robin schedule, for one, runs all invocations to their return. -/
theorem C9_no_lost_update (p : Probe) (cgroup_id : Nat) (r : metric_data)
    (m : Nat → Option metric_data) (callers : List (Probe × Nat))
    (hr : m cgroup_id = some r) (hwf : counter_of p r < U64_MOD) :
    (∀ schedule : List Nat, ∃ r2,
      (interleave schedule (spawn callers, m)).2 cgroup_id = some r2 ∧
      counter_of p r2
        = (counter_of p r
            + (interleave schedule (spawn callers, m)).1.countP (is_done p cgroup_id))
          % U64_MOD) ∧
    (∀ schedule : List Nat,
      (∀ t ∈ (interleave schedule (spawn callers, m)).1, t.pc = Pc.returned) →
      ∃ r2, (interleave schedule (spawn callers, m)).2 cgroup_id = some r2 ∧
        counter_of p r2 = (counter_of p r + callers.count (p, cgroup_id)) % U64_MOD ∧
        (counter_of p r + callers.count (p, cgroup_id) < U64_MOD →
          counter_of p r2 = counter_of p r + callers.count (p, cgroup_id))) ∧
    (∀ t ∈ (interleave (round_robin callers.length) (spawn callers, m)).1,
      t.pc = Pc.returned) := by
  have hinit : ∃ r1, (spawn callers, m).2 cgroup_id = some r1 ∧
      counter_of p r1
        = (counter_of p r + (spawn callers, m).1.countP (is_done p cgroup_id)) % U64_MOD :=
    ⟨r, hr, by simp [spawn_countP_is_done, Nat.mod_eq_of_lt hwf]⟩
  have hmain := fun schedule =>
    interleave_counter p cgroup_id (counter_of p r) schedule (spawn callers, m)
      (spawn_pointer_ok cgroup_id callers) hinit
  refine ⟨fun schedule => (hmain schedule).2.2, ?_, round_robin_completes callers m⟩
  intro schedule hdone
  obtain ⟨-, htarget, r2, hr2, hcount⟩ := hmain schedule
  have hall : (interleave schedule (spawn callers, m)).1.countP (is_done p cgroup_id)
      = callers.count (p, cgroup_id) := by
    rw [countP_is_done_of_all_returned p cgroup_id _ hdone, htarget]
    exact spawn_countP_is_target p cgroup_id callers
  rw [hall] at hcount
  exact ⟨r2, hr2, hcount, fun hfit => by rw [hcount, Nat.mod_eq_of_lt hfit]⟩

theorem C9_no_lost_update_witness :
    ((interleave sample_schedule
        (spawn sample_callers, (single_record 42 zero_record).metrics_map)).2 42).map
      (counter_of Probe.page_fault_user) = some 2 := by
  obtain ⟨r2, h, -, hexact⟩ :=
    (C9_no_lost_update Probe.page_fault_user 42 zero_record
      (single_record 42 zero_record).metrics_map sample_callers rfl (by decide)).2.1
      sample_schedule (by decide)
  rw [h, Option.map_some', hexact (by decide)]
  rfl

/-- C11: writing a score outside `[0, 1000]` with `ScoreStore.set` fails with
`InvalidScore` and leaves the maps as they were, so every `get` returns what it returned
before (the rejected value is neither stored nor replaced by a clamped one); this holds
in particular for the scores 1001 and -1. -/
theorem C11_invalid_score_rejected (identity : Nat) (score : Int) (st : Maps)
    (h : score < 0 ∨ 1000 < score) :
    (ScoreStore_set identity score st).1 = Except.error ScoreStoreError.InvalidScore ∧
    (ScoreStore_set identity score st).2 = st ∧
    (∀ k, ScoreStore_get k (ScoreStore_set identity score st).2 = ScoreStore_get k st) ∧
    ScoreStore_set identity 1001 st = (Except.error ScoreStoreError.InvalidScore, st) ∧
    ScoreStore_set identity (-1) st = (Except.error ScoreStoreError.InvalidScore, st) := by
  have hnot : ¬ (0 ≤ score ∧ score ≤ 1000) := by omega
  have hset : ScoreStore_set identity score st
      = (Except.error ScoreStoreError.InvalidScore, st) := by
    simp only [ScoreStore_set, if_neg hnot]
  refine ⟨by rw [hset], by rw [hset], fun k => by rw [hset], ?_, ?_⟩
  · simp [ScoreStore_set]
  · simp [ScoreStore_set]

theorem C11_invalid_score_rejected_witness :
    (ScoreStore_set 7 1001 (single_score 7 700)).1
        = Except.error ScoreStoreError.InvalidScore ∧
    ScoreStore_get 7 (ScoreStore_set 7 1001 (single_score 7 700)).2 = some 700 := by
  obtain ⟨h1, -, h3, -, -⟩ :=
    C11_invalid_score_rejected 7 1001 (single_score 7 700) (Or.inr (by decide))
  exact ⟨h1, by rw [h3 7]; rfl⟩

/-- C12: `tc_ingress_remediator` leaves both maps unchanged, and its verdict is determined
by the identity, the content of the score map and the draw (the random value modulo 1000):
two calls that agree on these three return the same verdict, whatever the metric map
holds. -/
theorem C12_remediator_has_no_side_effects (cgroup_id r1 r2 : Nat) (st1 st2 : Maps)
    (hscores : st1.health_scores_map = st2.health_scores_map)
    (hdraw : r1 % 1000 = r2 % 1000) :
    (tc_ingress_remediator cgroup_id r1 st1).2 = st1 ∧
    (tc_ingress_remediator cgroup_id r1 st1).2.health_scores_map = st1.health_scores_map ∧
    (tc_ingress_remediator cgroup_id r1 st1).2.metrics_map = st1.metrics_map ∧
    (tc_ingress_remediator cgroup_id r1 st1).1 = (tc_ingress_remediator cgroup_id r2 st2).1 := by
  have hmaps := tc_ingress_remediator_maps cgroup_id r1 st1
  refine ⟨hmaps, by rw [hmaps], by rw [hmaps], ?_⟩
  exact tc_ret_congr cgroup_id r1 r2 st1 st2 (by rw [hscores]) hdraw

theorem C12_remediator_has_no_side_effects_witness :
    (tc_ingress_remediator 7 299 (single_score 7 700)).1
      = (tc_ingress_remediator 7 1299 (record_and_score 42 zero_record 7 700)).1 :=
  (C12_remediator_has_no_side_effects 7 299 1299 (single_score 7 700)
    (record_and_score 42 zero_record 7 700) rfl (by decide)).2.2.2

/-- C13: `tc_ingress_remediator` returns one of the two verdicts `TC_ACT_OK` and
`TC_ACT_SHOT` for every input, and when the score stored for the identity is any value
above 1000 (so any 32-bit value outside `[0, 1000]`) it returns `TC_ACT_OK` for every
random value. -/
theorem C13_total_and_fail_open (cgroup_id s : Nat) (st : Maps)
    (hs : st.health_scores_map cgroup_id = some s) (hout : 1000 < s) :
    (∀ (c r : Nat) (st2 : Maps),
      (tc_ingress_remediator c r st2).1 = TC_ACT_OK ∨
      (tc_ingress_remediator c r st2).1 = TC_ACT_SHOT) ∧
    (∀ prandom_u32, (tc_ingress_remediator cgroup_id prandom_u32 st).1 = TC_ACT_OK) :=
  ⟨tc_ret_cases, fun prandom_u32 => @tc_ret_of_ge cgroup_id prandom_u32 s st hs (by omega)⟩

theorem C13_total_and_fail_open_witness :
    (tc_ingress_remediator 7 0 (single_score 7 4294967295)).1 = TC_ACT_OK :=
  (C13_total_and_fail_open 7 4294967295 (single_score 7 4294967295) rfl (by decide)).2 0

/-- C14: whenever a run of `tc_ingress_remediator` reaches the subtraction of line 74,
the stored score is below 990, and the `u32` value `1000 - score` is the mathematical
difference, lies in `[11, 1000]`, and is the threshold the verdict is taken from; a
stored score of 990 or more, however large, never reaches the subtraction. -/
theorem C14_drop_threshold_never_wraps (cgroup_id t : Nat) (st : Maps)
    (h : computed_drop_threshold cgroup_id st = some t) :
    (∃ s, st.health_scores_map cgroup_id = some s ∧ s < 990 ∧ t = drop_threshold s ∧
      (t : Int) = 1000 - (s : Int) ∧ 11 ≤ t ∧ t ≤ 1000) ∧
    (∀ prandom_u32, (tc_ingress_remediator cgroup_id prandom_u32 st).1
        = if prandom_u32 % 1000 < t then TC_ACT_SHOT else TC_ACT_OK) ∧
    (∀ (st2 : Maps) (s2 : Nat), st2.health_scores_map cgroup_id = some s2 → 990 ≤ s2 →
      computed_drop_threshold cgroup_id st2 = none) := by
  refine ⟨?_, ?_, ?_⟩
  · unfold computed_drop_threshold at h
    by_cases hid : cgroup_id = 0
    · simp [hid] at h
    · cases hs : st.health_scores_map cgroup_id with
      | none => simp [hid, hs] at h
      | some s =>
        by_cases h990 : s ≥ 990
        · simp [hid, hs, h990] at h
        · have hlt : s < 990 := by omega
          simp only [if_neg hid, hs, if_neg h990, Option.some.injEq] at h
          have hval := drop_threshold_of_lt hlt
          refine ⟨s, rfl, hlt, h.symm, ?_, ?_, ?_⟩ <;> omega
  · intro prandom_u32
    rw [tc_ret_eq_of_threshold, h]
  · intro st2 s2 hs2 hge
    unfold computed_drop_threshold
    by_cases hid : cgroup_id = 0
    · simp [hid]
    · simp [hid, hs2, hge]

theorem C14_drop_threshold_never_wraps_witness :
    ∃ s, (single_score 7 700).health_scores_map 7 = some s ∧ s < 990 ∧
      300 = drop_threshold s ∧ ((300 : Nat) : Int) = 1000 - (s : Int) ∧ 11 ≤ 300 ∧
      300 ≤ 1000 :=
  (C14_drop_threshold_never_wraps 7 300 (single_score 7 700) (by decide)).1

/-! ## Frame, monotonicity, isolation and commutation -/

/-- C15: when the record of the current identity exists, `sched_switch` adds 1 (in `u64`
arithmetic) to its `cpu_sched_latency_ns` and `page_fault_user` adds 1 to its
`mem_page_faults`; that counter does change, the other three fields of the record, the
records of all other identities, the set of keys of the metric map and the whole score
map do not; and no invocation of any of the three programs changes `net_latency_ns` or
`net_error_count` of any record. -/
theorem C15_one_counter_of_one_record (cgroup_id : Nat) (r : metric_data) (st : Maps)
    (hr : st.metrics_map cgroup_id = some r) :
    (sched_switch cgroup_id st).2.metrics_map cgroup_id
        = some { r with cpu_sched_latency_ns := (r.cpu_sched_latency_ns + 1) % U64_MOD } ∧
    (page_fault_user cgroup_id st).2.metrics_map cgroup_id
        = some { r with mem_page_faults := (r.mem_page_faults + 1) % U64_MOD } ∧
    (r.cpu_sched_latency_ns + 1) % U64_MOD ≠ r.cpu_sched_latency_ns ∧
    (r.mem_page_faults + 1) % U64_MOD ≠ r.mem_page_faults ∧
    (r.cpu_sched_latency_ns < U64_MOD - 1 →
      (r.cpu_sched_latency_ns + 1) % U64_MOD = r.cpu_sched_latency_ns + 1) ∧
    (r.mem_page_faults < U64_MOD - 1 →
      (r.mem_page_faults + 1) % U64_MOD = r.mem_page_faults + 1) ∧
    (∀ k, k ≠ cgroup_id →
      (sched_switch cgroup_id st).2.metrics_map k = st.metrics_map k ∧
      (page_fault_user cgroup_id st).2.metrics_map k = st.metrics_map k) ∧
    (∀ k, ((sched_switch cgroup_id st).2.metrics_map k).isSome = (st.metrics_map k).isSome ∧
      ((page_fault_user cgroup_id st).2.metrics_map k).isSome = (st.metrics_map k).isSome) ∧
    (sched_switch cgroup_id st).2.health_scores_map = st.health_scores_map ∧
    (page_fault_user cgroup_id st).2.health_scores_map = st.health_scores_map ∧
    (∀ (e : Event) (k : Nat) (r0 : metric_data), st.metrics_map k = some r0 →
      ∃ r2, (step st e).metrics_map k = some r2 ∧
        r2.net_latency_ns = r0.net_latency_ns ∧ r2.net_error_count = r0.net_error_count) := by
  refine ⟨?_, ?_, sync_fetch_and_add_one_ne _, sync_fetch_and_add_one_ne _, ?_, ?_, ?_, ?_,
    sched_switch_health_scores cgroup_id st, page_fault_user_health_scores cgroup_id st, ?_⟩
  · simp [sched_switch_metrics, hr, sync_fetch_and_add]
  · simp [page_fault_user_metrics, hr, sync_fetch_and_add]
  · intro hlt
    simp only [U64_MOD] at hlt ⊢
    omega
  · intro hlt
    simp only [U64_MOD] at hlt ⊢
    omega
  · intro k hk
    simp [sched_switch_metrics, page_fault_user_metrics, hk]
  · intro k
    rw [sched_switch_metrics, page_fault_user_metrics]
    by_cases hk : k = cgroup_id
    · subst hk; simp [hr]
    · simp [hk]
  · intro e k r0 hr0
    obtain ⟨r2, h2, hnl, hne, -, -⟩ := step_record st e k r0 hr0
    exact ⟨r2, h2, hnl, hne⟩

theorem C15_one_counter_of_one_record_witness :
    (sched_switch 42 (single_record 42 zero_record)).2.metrics_map 42
        = some { zero_record with cpu_sched_latency_ns := (0 + 1) % U64_MOD } ∧
    (page_fault_user 42 (single_record 42 zero_record)).2.metrics_map 42
        = some { zero_record with mem_page_faults := (0 + 1) % U64_MOD } :=
  ⟨(C15_one_counter_of_one_record 42 zero_record (single_record 42 zero_record) rfl).1,
   (C15_one_counter_of_one_record 42 zero_record (single_record 42 zero_record) rfl).2.1⟩

/-- C16: for stored scores `s1 ≤ s2` of an identity, a random value that is dropped with
`s2` is dropped with `s1`, and one that is admitted with `s1` is admitted with `s2`; and
for a fixed score, when a draw `d` in `[0, 999]` is dropped every draw `d2 ≤ d` is
dropped. -/
theorem C16_verdict_monotone (cgroup_id s1 s2 d : Nat) (st1 st2 : Maps)
    (h1 : st1.health_scores_map cgroup_id = some s1)
    (h2 : st2.health_scores_map cgroup_id = some s2)
    (hle : s1 ≤ s2) (hd : d < 1000) :
    (∀ prandom_u32, (tc_ingress_remediator cgroup_id prandom_u32 st2).1 = TC_ACT_SHOT →
      (tc_ingress_remediator cgroup_id prandom_u32 st1).1 = TC_ACT_SHOT) ∧
    (∀ prandom_u32, (tc_ingress_remediator cgroup_id prandom_u32 st1).1 = TC_ACT_OK →
      (tc_ingress_remediator cgroup_id prandom_u32 st2).1 = TC_ACT_OK) ∧
    (∀ d2, d2 ≤ d → (tc_ingress_remediator cgroup_id d st1).1 = TC_ACT_SHOT →
      (tc_ingress_remediator cgroup_id d2 st1).1 = TC_ACT_SHOT) := by
  have hmono : ∀ prandom_u32,
      (tc_ingress_remediator cgroup_id prandom_u32 st2).1 = TC_ACT_SHOT →
      (tc_ingress_remediator cgroup_id prandom_u32 st1).1 = TC_ACT_SHOT := by
    intro prandom_u32 hshot
    obtain ⟨hid, s, hs, hlt, hdraw⟩ := (tc_ret_shot_iff cgroup_id prandom_u32 st2).mp hshot
    rw [h2] at hs
    injection hs with hs
    subst hs
    exact (tc_ret_shot_iff cgroup_id prandom_u32 st1).mpr
      ⟨hid, s1, h1, by omega, by omega⟩
  refine ⟨hmono, ?_, ?_⟩
  · intro prandom_u32 hok
    rcases tc_ret_cases cgroup_id prandom_u32 st2 with h | h
    · exact h
    · rw [hmono prandom_u32 h] at hok
      exact absurd hok TC_ACT_SHOT_ne_OK
  · intro d2 hd2 hshot
    obtain ⟨hid, s, hs, hlt, hdraw⟩ := (tc_ret_shot_iff cgroup_id d st1).mp hshot
    refine (tc_ret_shot_iff cgroup_id d2 st1).mpr ⟨hid, s, hs, hlt, ?_⟩
    have e1 : d % 1000 = d := Nat.mod_eq_of_lt hd
    have e2 : d2 % 1000 = d2 := Nat.mod_eq_of_lt (by omega)
    omega

theorem C16_verdict_monotone_witness :
    (tc_ingress_remediator 7 250 (single_score 7 500)).1 = TC_ACT_SHOT ∧
    (tc_ingress_remediator 7 100 (single_score 7 500)).1 = TC_ACT_SHOT := by
  have h := C16_verdict_monotone 7 500 700 250 (single_score 7 500) (single_score 7 700)
    rfl rfl (by decide) (by decide)
  have h700 : (tc_ingress_remediator 7 250 (single_score 7 700)).1 = TC_ACT_SHOT := by decide
  exact ⟨h.1 250 h700, h.2.2 100 (by decide) (h.1 250 h700)⟩

/-- C17: the verdict for identity `a` is the same in any two states whose score maps
agree on the entry (or absence) of `a`; setting or removing the score of another
identity `b ≠ a`, or replacing the metric map by any other, does not change it. -/
theorem C17_tenant_isolation (a prandom_u32 : Nat) (st1 st2 : Maps)
    (h : st1.health_scores_map a = st2.health_scores_map a) :
    (tc_ingress_remediator a prandom_u32 st1).1 = (tc_ingress_remediator a prandom_u32 st2).1 ∧
    (∀ (b : Nat) (v : Option Nat), b ≠ a →
      (tc_ingress_remediator a prandom_u32
          { st1 with
            health_scores_map := fun k => if k = b then v else st1.health_scores_map k }).1
        = (tc_ingress_remediator a prandom_u32 st1).1) ∧
    (∀ mm : Nat → Option metric_data,
      (tc_ingress_remediator a prandom_u32 { st1 with metrics_map := mm }).1
        = (tc_ingress_remediator a prandom_u32 st1).1) := by
  refine ⟨tc_ret_congr a prandom_u32 prandom_u32 st1 st2 h rfl, ?_, ?_⟩
  · intro b v hb
    apply tc_ret_congr _ _ _ _ _ _ rfl
    have hab : ¬ a = b := fun hab => hb hab.symm
    simp [hab]
  · intro mm
    exact tc_ret_congr _ _ _ _ _ rfl rfl

theorem C17_tenant_isolation_witness :
    (tc_ingress_remediator 7 299 (two_scores 7 700 8 0)).1
      = (tc_ingress_remediator 7 299 (single_score 7 700)).1 :=
  (C17_tenant_isolation 7 299 (two_scores 7 700 8 0) (single_score 7 700) rfl).1

/-- C18: any two invocations commute: applied to any state in either order they leave
the same maps; hence two finite sequences of invocations in which every invocation
occurs the same number of times lead from a state to the same state. -/
theorem C18_events_commute (st : Maps) (es1 es2 : List Event)
    (hcount : ∀ e, es1.count e = es2.count e) :
    (∀ (st2 : Maps) (e1 e2 : Event), step (step st2 e1) e2 = step (step st2 e2) e1) ∧
    run st es1 = run st es2 := by
  refine ⟨step_comm, ?_⟩
  have hperm : es1.Perm es2 := List.perm_iff_count.mpr hcount
  exact List.Perm.foldl_eq' hperm (fun x _ y _ z => step_comm z x y) st

theorem C18_events_commute_witness :
    run (single_record 42 zero_record)
        [Event.sched_switch 42, Event.page_fault_user 42, Event.page_fault_user 7]
      = run (single_record 42 zero_record)
        [Event.page_fault_user 7, Event.page_fault_user 42, Event.sched_switch 42] :=
  (C18_events_commute (single_record 42 zero_record)
    [Event.sched_switch 42, Event.page_fault_user 42, Event.page_fault_user 7]
    [Event.page_fault_user 7, Event.page_fault_user 42, Event.sched_switch 42]
    (fun e => List.perm_iff_count.mp (by decide) e)).2

end EbpfShield
